import Mathlib

/-!
Shallow embedding of the `prometheus-radiator-exporter` sources
(`src/main.rs`, `src/radiator.rs`, `src/openmetrics.rs`, `src/config.rs`)
and proofs about the behaviour claimed by the specification.

Modelling conventions:
* Response frames and payloads are handled by the Rust code as `&[u8]`
  byte slices that are then decoded as UTF-8.  Here frames are modelled
  as Lean `String`s / `List Char`; the byte `b'\n'` search of the source
  coincides with the first `'\n'` character of a valid-UTF-8 frame
  (0x0A never occurs inside a multi-byte UTF-8 sequence), and the
  UTF-8-decoding step, which only fails on invalid byte sequences that a
  `String` cannot represent, is modelled as always succeeding.
* The raw byte level is kept (as `List Nat`) exactly where it matters:
  in the reader task, whose NUL-splitting of the incoming byte stream is
  what claims C9 and C10 are about.
* Asynchronous I/O is modelled by explicit environment records (oracles
  for the outcome of each socket operation); a Rust `panic!` /
  `assert!` failure is modelled as `Option.none`.
* Machine integers: `i64` values are modelled as `Int` with the explicit
  range check of `str::parse::<i64>`; `f64` values are modelled by the
  exact decimal rational they denote (plus infinity/NaN markers), since
  none of the claims depend on binary rounding.
-/

namespace RadiatorExporter

/-- ASCII alphabetic test, as Rust's `char::is_ascii_alphabetic`. -/
def isAsciiAlphabetic (c : Char) : Bool :=
  ('A'.toNat ≤ c.toNat && c.toNat ≤ 'Z'.toNat) || ('a'.toNat ≤ c.toNat && c.toNat ≤ 'z'.toNat)

/-- ASCII digit test, as Rust's `char::is_ascii_digit`. -/
def isAsciiDigit (c : Char) : Bool :=
  '0'.toNat ≤ c.toNat && c.toNat ≤ '9'.toNat

/-- Split a character list at the first occurrence of `c`, as Rust's
`str::split_once` / `iter().position`: `none` when `c` does not occur,
otherwise the (delimiter-free) parts before and after the first `c`. -/
def splitOnce (c : Char) : List Char → Option (List Char × List Char)
  | [] => none
  | x :: rest =>
    if x = c then some ([], rest)
    else (splitOnce c rest).map (fun p => (x :: p.1, p.2))

/-- Split a character list at every occurrence of `c`, as Rust's
`str::split(c)`: the empty list yields one empty piece, and empty pieces
between adjacent delimiters are preserved. -/
def splitAll (c : Char) : List Char → List (List Char)
  | [] => [[]]
  | x :: rest =>
    if x = c then [] :: splitAll c rest
    else
      match splitAll c rest with
      | [] => [[x]]
      | h :: t => (x :: h) :: t

/-- Join a list of strings with the single character `c` between
consecutive elements (inverse of `splitAll` for pieces free of `c`). -/
def joinWith (c : Char) : List String → String
  | [] => ""
  | [s] => s
  | s :: rest => s ++ String.singleton c ++ joinWith c rest

/-- Numeric value of a list of ASCII digits, most significant first. -/
def digitsToNat (ds : List Char) : Nat :=
  ds.foldl (fun a c => a * 10 + (c.toNat - '0'.toNat)) 0

/-- Rust `str::parse::<i64>`: an optional single `+`/`-` sign followed by
one or more ASCII digits, with the resulting value required to fit into
a signed 64-bit integer; anything else fails. -/
def parseI64 (s : List Char) : Option Int :=
  let signed : Bool × List Char :=
    match s with
    | '+' :: rest => (false, rest)
    | '-' :: rest => (true, rest)
    | other => (false, other)
  let neg := signed.1
  let digits := signed.2
  if digits = [] then none
  else if digits.all isAsciiDigit then
    let v : Int := if neg then -(digitsToNat digits : Int) else (digitsToNat digits : Int)
    if -(2 ^ 63) ≤ v ∧ v < 2 ^ 63 then some v else none
  else none

/-- Value of a finite `f64` literal, modelled exactly: the finite case
carries the decimal value `mantissa * 10 ^ exp10` (binary rounding is
not modelled, no claim depends on it), and infinities / NaN are
explicit markers. -/
inductive FloatVal
  | finite (mantissa : Int) (exp10 : Int)
  | infinite (neg : Bool)
  | nan
deriving DecidableEq

/-- Optional exponent suffix of Rust's `f64` grammar:
empty input means exponent 0; otherwise `e`/`E`, an optional sign and at
least one digit; anything else fails. -/
def parseExpSuffix : List Char → Option Int
  | [] => some 0
  | e :: rest =>
    if e = 'e' ∨ e = 'E' then
      let signed : Bool × List Char :=
        match rest with
        | '+' :: r => (false, r)
        | '-' :: r => (true, r)
        | other => (false, other)
      if signed.2 ≠ [] ∧ signed.2.all isAsciiDigit then
        some (if signed.1 then -(digitsToNat signed.2 : Int) else (digitsToNat signed.2 : Int))
      else none
    else none

/-- The `Number` part of Rust's `f64` grammar
(`Count '.'? Count? Exp? | '.' Count Exp?`), evaluated exactly as a
decimal `(mantissa, exp10)` pair: the digits before and after the point
form the mantissa and the fractional length is subtracted from the
exponent. -/
def parseF64Number (s : List Char) : Option (Int × Int) :=
  let ip := s.takeWhile isAsciiDigit
  let rest := s.dropWhile isAsciiDigit
  match rest with
  | '.' :: rest2 =>
    let fp := rest2.takeWhile isAsciiDigit
    let rest3 := rest2.dropWhile isAsciiDigit
    if ip = [] ∧ fp = [] then none
    else
      (parseExpSuffix rest3).map (fun e =>
        ((digitsToNat ip * 10 ^ fp.length + digitsToNat fp : Int), e - fp.length))
  | other =>
    if ip = [] then none
    else (parseExpSuffix other).map (fun e => ((digitsToNat ip : Int), e))

/-- Rust `str::parse::<f64>`: optional sign, then a case-insensitive
`inf`/`infinity`/`nan` keyword or a decimal number per `parseF64Number`. -/
def parseF64 (s : List Char) : Option FloatVal :=
  let signed : Bool × List Char :=
    match s with
    | '+' :: rest => (false, rest)
    | '-' :: rest => (true, rest)
    | other => (false, other)
  let neg := signed.1
  let body := signed.2
  let lowered := body.map Char.toLower
  if lowered = ('i' :: 'n' :: 'f' :: []) ∨
      lowered = ('i' :: 'n' :: 'f' :: 'i' :: 'n' :: 'i' :: 't' :: 'y' :: []) then
    some (FloatVal.infinite neg)
  else if lowered = ('n' :: 'a' :: 'n' :: []) then
    some FloatVal.nan
  else
    (parseF64Number body).map (fun p =>
      FloatVal.finite (if neg then -p.1 else p.1) p.2)

/-- `openmetrics.rs`: `enum Number { Integer(i64), Float(f64) }`. -/
inductive Number
  | integer (i : Int)
  | float (f : FloatVal)
deriving DecidableEq

/-- `main.rs` `decode_stats`, value parsing step: try `i64` first and
fall back to `f64` on integer-parse failure (`value.parse()` chain). -/
def parseValue (v : String) : Option Number :=
  match parseI64 v.data with
  | some i => some (Number.integer i)
  | none => (parseF64 v.data).map Number.float

/-- `HashMap::insert` modelled on an association list whose keys stay
unique: an existing binding of the key is overwritten in place,
otherwise the binding is appended. -/
def insertReplace (k : String) (v : Number) : List (String × Number) → List (String × Number)
  | [] => [(k, v)]
  | (k', v') :: rest =>
    if k' = k then (k, v) :: rest else (k', v') :: insertReplace k v rest

/-- `HashMap::get` on the association-list model: first matching key. -/
def lookupStat (k : String) : List (String × Number) → Option Number
  | [] => none
  | (k', v') :: rest => if k' = k then some v' else lookupStat k rest

/-- One `key_value_pair` iteration of `main.rs` `decode_stats`: split on
the first colon (skip the item when there is none), parse the value as
`i64` then `f64` (skip the item when neither parses), and insert with
duplicate keys overwritten. -/
def stepItem (acc : List (String × Number)) (item : String) : List (String × Number) :=
  match splitOnce ':' item.data with
  | none => acc
  | some (k, v) =>
    match parseValue (String.mk v) with
    | none => acc
    | some num => insertReplace (String.mk k) num acc

/-- The fold of `decode_stats` over the U+0001-delimited items. -/
def decodeItems (items : List String) : List (String × Number) :=
  items.foldl stepItem []

/-- `main.rs` `decode_stats`: drop the echoed command up to the first
newline (no newline at all fails the decode), split the payload on
U+0001 and fold the key/value items. -/
def decode_stats (response : String) : Option (List (String × Number)) :=
  match splitOnce '\n' response.data with
  | none => none
  | some (_echo, payload) =>
    some (decodeItems ((splitAll (Char.ofNat 1) payload).map String.mk))

/-- `main.rs` `extract_identifier`, inner scan over the
`key:type:value` tuples: the first tuple with two colons whose key is
`Identifier` and whose type is `string` yields its value. -/
def findIdentifier : List (List Char) → Option String
  | [] => none
  | item :: rest =>
    match splitOnce ':' item with
    | none => findIdentifier rest
    | some (key, typeValue) =>
      match splitOnce ':' typeValue with
      | none => findIdentifier rest
      | some (valueType, value) =>
        if key = ("Identifier").data ∧ valueType = ("string").data then some (String.mk value)
        else findIdentifier rest

/-- `main.rs` `extract_identifier`: drop the echoed command up to the
first newline (no newline fails), split on U+0001 and scan for the
`Identifier:string:` tuple. -/
def extract_identifier (response : String) : Option String :=
  match splitOnce '\n' response.data with
  | none => none
  | some (_echo, payload) => findIdentifier (splitAll (Char.ofNat 1) payload)

/-- `radiator.rs`: `enum Error`.  I/O errors carry an abstract code. -/
inductive RErr
  | io (code : Nat)
  | invalidCredentials
  | unexpectedLoginResponse (response : String)
  | readerGone
deriving DecidableEq

/-- Outcome of the identifier-enumeration loop of `handle_request`
(`main.rs`, the `for i in 0..` loop): a `communicate` error makes the
handler return HTTP 500, `NOSUCHOBJECT` ends the loop with the
collected index-to-identifier map, and `fuelOut` marks that the given
number of loop iterations did not suffice (the source loop is
unbounded). -/
inductive EnumOut
  | httpError (e : RErr)
  | done (m : List (Nat × String))
  | fuelOut
deriving DecidableEq

/-- The identifier-enumeration loop of `handle_request` over an oracle
`resp` giving each `DESCRIBE {kind}.{i}` response: stop with `done` when
the whole response frame equals `NOSUCHOBJECT`, skip an index whose
identifier extraction fails, record `(i, identifier)` otherwise. -/
def enumerate_objects (resp : Nat → Except RErr String) : Nat → Nat → List (Nat × String) → EnumOut
  | 0, _, _ => EnumOut.fuelOut
  | fuel + 1, i, acc =>
    match resp i with
    | .error e => EnumOut.httpError e
    | .ok r =>
      if r = "NOSUCHOBJECT" then EnumOut.done acc
      else
        match extract_identifier r with
        | none => enumerate_objects resp fuel (i + 1) acc
        | some id => enumerate_objects resp fuel (i + 1) (acc ++ [(i, id)])

/-- The index-to-identifier pairs gathered from `k` consecutive indices
starting at `i`: an index contributes exactly when its response carries
an extractable identifier. -/
def collectFrom (resp : Nat → Except RErr String) : Nat → Nat → List (Nat × String)
  | _, 0 => []
  | i, k + 1 =>
    (match resp i with
     | .ok r =>
       match extract_identifier r with
       | some id => [(i, id)]
       | none => []
     | .error _ => []) ++ collectFrom resp (i + 1) k

/-- The payload of a response frame in the sense of the specification:
everything after the first newline, `none` when there is no newline. -/
def payloadAfterNewline (s : String) : Option String :=
  (splitOnce '\n' s.data).map (fun p => String.mk p.2)

/-- `config.rs` `RadiatorConfig`, restricted to the fields the protocol
client reads (target address and port play no role in the model, where
connecting is an oracle outcome). -/
structure RadiatorConfig where
  username : String
  password : String
deriving DecidableEq

/-- `radiator.rs` `SocketState`, as observable by the claims: the
installed write-half (identified by an abstract connection id) and the
sequence of read-halves handed off to the reader task so far. -/
structure SocketState where
  socket_writer : Option Nat
  readerSent : List Nat
deriving DecidableEq

/-- Decidable equality of `Except` values, needed so that concrete
witnesses about connection outcomes can be settled by `decide`. -/
instance {ε α : Type} [DecidableEq ε] [DecidableEq α] : DecidableEq (Except ε α) := fun x y =>
  match x, y with
  | .ok a, .ok b => if h : a = b then isTrue (by rw [h]) else isFalse (by simp [h])
  | .error a, .error b => if h : a = b then isTrue (by rw [h]) else isFalse (by simp [h])
  | .ok _, .error _ => isFalse (by simp)
  | .error _, .ok _ => isFalse (by simp)

/-- Oracle for one run of `connect_to_radiator`: the outcome of the TCP
connect, of writing the login frame, and of reading the login response
(`Except.ok` carries the buffer `read_until` produced, trailing NUL
included when one was read), plus the id of the fresh connection. -/
structure ConnEnv where
  tcpResult : Option Nat
  writeResult : Option Nat
  loginRead : Except Nat String
  newConnId : Nat
deriving DecidableEq

/-- `radiator.rs` `connect_to_radiator`: connect, send the single
`BINARY\r\nLOGIN {user} {pass}\0` frame, read one NUL-terminated frame
and dispatch on it.  Returns the updated socket state, the frames
handed to `write_all` on the new socket, and the result.  Only the
`LOGGEDIN` case installs the write-half and hands the read-half to the
reader task. -/
def connect_to_radiator (config : RadiatorConfig) (env : ConnEnv) (st : SocketState) :
    SocketState × List String × Except RErr Unit :=
  match env.tcpResult with
  | some e => (st, [], .error (.io e))
  | none =>
    let login_string :=
      "BINARY\r\nLOGIN " ++ config.username ++ " " ++ config.password ++ "\u0000"
    match env.writeResult with
    | some e => (st, [login_string], .error (.io e))
    | none =>
      match env.loginRead with
      | .error e => (st, [login_string], .error (.io e))
      | .ok buf =>
        if buf = "LOGGEDIN\u0000" then
          ({ socket_writer := some env.newConnId,
             readerSent := st.readerSent ++ [env.newConnId] },
           [login_string], .ok ())
        else if buf = "BADLOGIN\u0000" then
          (st, [login_string], .error .invalidCredentials)
        else
          (st, [login_string], .error (.unexpectedLoginResponse buf))

/-- `radiator.rs` `write_command`: assert the command holds no NUL byte
(`none` models the `assert!` panic), append the NUL terminator and hand
the frame to the socket; the oracle decides whether the write fails. -/
def write_command (command : String) (ioResult : Option Nat) :
    Option (List String × Except RErr Unit) :=
  if command.data.contains (Char.ofNat 0) then none
  else
    let terminated := command ++ "\u0000"
    match ioResult with
    | some e => some ([terminated], .error (.io e))
    | none => some ([terminated], .ok ())

/-- Oracle for one run of `communicate_inner`: outcomes of the first
write attempt, of the reconnect (used only after a write failure), of
the write retry, the value of the reader task's `SOCKET_GONE` flag at
the post-write check, and the next message of the delivery channel
(`none` models a closed channel). -/
structure CommEnv where
  write1 : Option Nat
  connEnv : ConnEnv
  write2 : Option Nat
  socketGone : Bool
  channel : Option String
deriving DecidableEq

/-- Result of one `communicate_inner` run: the socket state afterwards,
every frame handed to a socket write in order, how many reconnects were
attempted, and the call's result. -/
structure InnerOut where
  state : SocketState
  wrote : List String
  reconnects : Nat
  result : Except RErr String
deriving DecidableEq

/-- Tail of `communicate_inner` after a successful write: first consult
the reader task's death flag (`SOCKET_GONE.swap`), then await the
delivery channel, a closed channel meaning the reader is gone. -/
def awaitResponse (env : CommEnv) (st : SocketState) (wrote : List String)
    (reconnects : Nat) : InnerOut :=
  if env.socketGone then ⟨st, wrote, reconnects, .error .readerGone⟩
  else
    match env.channel with
    | some msg => ⟨st, wrote, reconnects, .ok msg⟩
    | none => ⟨st, wrote, reconnects, .error .readerGone⟩

/-- `radiator.rs` `communicate_inner`: under the socket-state lock,
write the command (reconnecting once and retrying the write once if the
first write fails), then check the death flag and await the response.
`none` models a panic (`expect` on a missing writer, or a NUL byte in
the command). -/
def communicate_inner (config : RadiatorConfig) (command : String) (env : CommEnv)
    (st : SocketState) : Option InnerOut :=
  match st.socket_writer with
  | none => none
  | some _ =>
    match write_command command env.write1 with
    | none => none
    | some (t1, .ok ()) => some (awaitResponse env st t1 0)
    | some (t1, .error _) =>
      let reconnected := connect_to_radiator config env.connEnv st
      match reconnected.2.2 with
      | .error e => some ⟨reconnected.1, t1 ++ reconnected.2.1, 1, .error e⟩
      | .ok () =>
        match write_command command env.write2 with
        | none => none
        | some (t2, .error e) =>
          some ⟨reconnected.1, t1 ++ reconnected.2.1 ++ t2, 1, .error e⟩
        | some (t2, .ok ()) =>
          some (awaitResponse env reconnected.1 (t1 ++ reconnected.2.1 ++ t2) 1)

/-- The retry loop of the public `communicate` entry point, with the
attempt index and the remaining attempt budget explicit; each attempt
sees its own oracle and the socket state the previous attempt left
behind.  Exhausting the budget yields `ReaderGone`. -/
def communicate_go (config : RadiatorConfig) (command : String)
    (envs : Nat → CommEnv) : Nat → Nat → SocketState → Option (Except RErr String)
  | _, 0, _ => some (.error .readerGone)
  | i, budget + 1, st =>
    match communicate_inner config command (envs i) st with
    | none => none
    | some out =>
      match out.result with
      | .ok v => some (.ok v)
      | .error .readerGone => communicate_go config command envs (i + 1) budget out.state
      | .error e => some (.error e)

/-- `radiator.rs` `communicate`: up to 3 attempts of
`communicate_inner`, retrying only on `ReaderGone`. -/
def communicate (config : RadiatorConfig) (command : String) (envs : Nat → CommEnv)
    (st : SocketState) : Option (Except RErr String) :=
  communicate_go config command envs 0 3 st

/-- The value `communicate_inner` computes on its panic-free paths,
written out as a total function of the oracle; used to characterize the
runs of `communicate_inner` in the theorems below. -/
def innerSpec (config : RadiatorConfig) (command : String) (env : CommEnv)
    (st : SocketState) : InnerOut :=
  let t1 := command ++ "\u0000"
  match env.write1 with
  | none => awaitResponse env st [t1] 0
  | some _ =>
    let recon := connect_to_radiator config env.connEnv st
    match recon.2.2 with
    | .error e => ⟨recon.1, [t1] ++ recon.2.1, 1, .error e⟩
    | .ok () =>
      match env.write2 with
      | some e => ⟨recon.1, [t1] ++ recon.2.1 ++ [t1], 1, .error (.io e)⟩
      | none => awaitResponse env recon.1 ([t1] ++ recon.2.1 ++ [t1]) 1

/-- Observable actions of the reader task (`radiator.rs`
`message_processor`): forwarding a frame (NUL terminator stripped) to
the delivery channel, or setting the shared `SOCKET_GONE` death flag
when the current socket ends. -/
inductive REvent
  | forward (frame : List Nat)
  | markDead
deriving DecidableEq

/-- Split a byte stream into the successive buffers `read_until(b'\0')`
returns: the complete NUL-terminated chunks (each including its
terminator) and the trailing bytes after the last NUL.  The first
component of the result lists the complete chunks, the second is the
unterminated remainder. -/
def nulChunksAux (acc : List Nat) : List Nat → List (List Nat) × List Nat
  | [] => ([], acc.reverse)
  | b :: rest =>
    if b = 0 then
      let tail := nulChunksAux [] rest
      ((acc.reverse ++ [0]) :: tail.1, tail.2)
    else nulChunksAux (b :: acc) rest

/-- All complete NUL-terminated chunks of a byte stream, plus the
unterminated remainder. -/
def nulChunks (stream : List Nat) : List (List Nat) × List Nat :=
  nulChunksAux [] stream

/-- The byte prefix `b"LOG "` that marks a discarded notification. -/
def logPrefix : List Nat := [76, 79, 71, 32]

/-- The inner read loop of `message_processor` for one connection,
over the bytes the socket delivers before it ends (`errAtEnd` tells
whether it ends in a read error rather than in end-of-file).  Each
complete chunk must end in NUL (`assert!(buf.last() == Some(&b'\0'))`;
its failure, i.e. a successful read of a nonempty buffer without a
final NUL, is the panic modelled by `none`); the terminator is popped
and the frame forwarded unless it starts with `b"LOG "`.  A read error
consumes the unterminated remainder; clean end-of-file returns it as a
buffer and trips the assertion when it is nonempty.  Both stream ends
set the death flag and return to waiting. -/
def processChunks (leftover : List Nat) (errAtEnd : Bool) : List (List Nat) → Option (List REvent)
  | [] =>
    if leftover = [] ∨ errAtEnd then some [REvent.markDead]
    else none
  | chunk :: rest =>
    match processChunks leftover errAtEnd rest with
    | none => none
    | some evs =>
      let frame := chunk.dropLast
      some (if logPrefix.isPrefixOf frame then evs else REvent.forward frame :: evs)

/-- The inner read loop for one connection: split the byte stream into
`read_until` buffers and process them via `processChunks`. -/
def processConnection (stream : List Nat) (errAtEnd : Bool) : Option (List REvent) :=
  processChunks (nulChunks stream).2 errAtEnd (nulChunks stream).1

/-- `radiator.rs` `message_processor`: wait for sockets handed off on
the channel, process each in order, and terminate exactly when the
handoff channel is closed (modelled by exhausting the socket list).
A panic in one connection's loop aborts the whole task (`none`). -/
def message_processor : List (List Nat × Bool) → Option (List REvent)
  | [] => some []
  | (stream, errAtEnd) :: rest =>
    match processConnection stream errAtEnd with
    | none => none
    | some evs =>
      match message_processor rest with
      | none => none
      | some evs' => some (evs ++ evs')

/-- `openmetrics.rs` `MetricKind`. -/
inductive MetricKind
  | counter
  | gauge
deriving DecidableEq

/-- `MetricKind::as_openmetrics`. -/
def MetricKind.as_openmetrics : MetricKind → String
  | .counter => "counter"
  | .gauge => "gauge"

/-- `MetricKind::openmetrics_metric_suffix`. -/
def MetricKind.openmetrics_metric_suffix : MetricKind → String
  | .counter => "_total"
  | .gauge => ""

/-- The metric-name acceptance of `Metric::new` (`openmetrics.rs`):
nonempty, first character ASCII-alphabetic or `_` or `:`, every further
character ASCII-alphabetic, an ASCII digit, `_` or `:`. -/
def metric_new_name_ok (name : String) : Bool :=
  match name.data with
  | [] => false
  | c :: rest =>
    (isAsciiAlphabetic c || c = '_' || c = ':') &&
      rest.all (fun d => isAsciiAlphabetic d || isAsciiDigit d || d = '_' || d = ':')

/-- The metric-name grammar `[A-Za-z_:][A-Za-z0-9_:]*` as stated by the
specification. -/
def metric_name_grammar (name : String) : Bool :=
  match name.data with
  | [] => false
  | c :: rest =>
    (isAsciiAlphabetic c || c = '_' || c = ':') &&
      rest.all (fun d => isAsciiAlphabetic d || isAsciiDigit d || d = '_' || d = ':')

/-- The metric-name portion of `config.rs` `check_metric`, embedded
with the source's exact operator precedence: the first-character test
is `is_ascii_alphabetic() || metric_start == '_' && metric_start == ':'`,
in which `&&` binds tighter than `||`. -/
def check_metric_name (name : String) : Bool :=
  match name.data with
  | [] => false
  | c :: rest =>
    (isAsciiAlphabetic c || (c = '_' && c = ':')) &&
      rest.all (fun d => isAsciiAlphabetic d || isAsciiDigit d || d = '_' || d = ':')

/-- The label-name acceptance of `Metric::add_label`: the source first
calls `label.chars().nth(0).unwrap()`, so the empty label is a panic,
merged here into a failed check; the first character must be
ASCII-alphabetic or `_`, the rest ASCII-alphanumeric or `_`. -/
def label_name_ok (label : String) : Bool :=
  match label.data with
  | [] => false
  | c :: rest =>
    (isAsciiAlphabetic c || c = '_') &&
      rest.all (fun d => isAsciiAlphabetic d || isAsciiDigit d || d = '_')

/-- Byte-lexicographic comparison of character lists.  Rust's `Ord` for
`String` compares UTF-8 bytes; comparing Unicode code points is the
same order because UTF-8 preserves code-point order. -/
def charsLtB : List Char → List Char → Bool
  | [], [] => false
  | [], _ :: _ => true
  | _ :: _, [] => false
  | a :: as, b :: bs =>
    if a.toNat < b.toNat then true
    else if b.toNat < a.toNat then false
    else charsLtB as bs

/-- Rust `String` ordering on the model. -/
def strLtB (a b : String) : Bool := charsLtB a.data b.data

/-- Rust `Vec<String>` ordering: lexicographic over `strLtB`, a strict
prefix ordering first. -/
def keysLtB : List String → List String → Bool
  | [], [] => false
  | [], _ :: _ => true
  | _ :: _, [] => false
  | a :: as, b :: bs =>
    if strLtB a b then true
    else if strLtB b a then false
    else keysLtB as bs

/-- `BTreeMap::insert` modelled on a key-sorted association list:
insert before the first larger key, overwrite the value on an equal
key. -/
def mapInsertBy {κ ν : Type} (lt : κ → κ → Bool) (k : κ) (v : ν) :
    List (κ × ν) → List (κ × ν)
  | [] => [(k, v)]
  | (k', v') :: rest =>
    if lt k k' then (k, v) :: (k', v') :: rest
    else if lt k' k then (k', v') :: mapInsertBy lt k v rest
    else (k', v) :: rest

/-- `BTreeSet::insert` modelled on a sorted list: insert before the
first larger element, keep the list unchanged on an equal element. -/
def setInsertBy {κ : Type} (lt : κ → κ → Bool) (k : κ) : List κ → List κ
  | [] => [k]
  | k' :: rest =>
    if lt k k' then k :: k' :: rest
    else if lt k' k then k' :: setInsertBy lt k rest
    else k' :: rest

/-- `openmetrics.rs` `Metric`: the `BTreeSet` of label names and the
`BTreeMap` from label-value tuples to sample values are key-sorted
lists. -/
structure Metric where
  name : String
  kind : MetricKind
  help : Option String
  unit : Option String
  label_names : List String
  samples : List (List String × Number)
deriving DecidableEq

/-- `Metric::new`: the name must satisfy the metric-name assertions
(`none` models the `assert!` panic); help, unit, labels and samples
start empty. -/
def Metric.new (name : String) (kind : MetricKind) : Option Metric :=
  if metric_new_name_ok name then
    some { name := name, kind := kind, help := none, unit := none,
           label_names := [], samples := [] }
  else none

/-- `Metric::set_help`: a present help string must be nonempty. -/
def Metric.set_help (m : Metric) (help : Option String) : Option Metric :=
  match help with
  | some h => if h.data = [] then none else some { m with help := some h }
  | none => some { m with help := none }

/-- `Metric::set_unit`: a present unit must be nonempty and consist of
metric-name characters. -/
def Metric.set_unit (m : Metric) (u : Option String) : Option Metric :=
  match u with
  | some s =>
    if s.data ≠ [] &&
        s.data.all (fun d => isAsciiAlphabetic d || isAsciiDigit d || d = '_' || d = ':') then
      some { m with unit := some s }
    else none
  | none => some { m with unit := none }

/-- `Metric::has_label`. -/
def Metric.has_label (m : Metric) (label : String) : Bool :=
  m.label_names.contains label

/-- `Metric::add_label`: asserts that no sample has been recorded yet
and that the label matches the label-name grammar, then inserts it into
the label-name set. -/
def Metric.add_label (m : Metric) (label : String) : Option Metric :=
  if m.samples ≠ [] then none
  else if label_name_ok label then
    some { m with label_names := setInsertBy strLtB label m.label_names }
  else none

/-- `BTreeMap::get` on the label map handed to `add_sample`. -/
def lookupLabel (k : String) : List (String × String) → Option String
  | [] => none
  | (k', v) :: rest => if k' = k then some v else lookupLabel k rest

/-- The first loop of `Metric::add_sample`: look every registered label
name up in the supplied map, in label-name order; a missing one is the
`panic!("missing value for label ...")`. -/
def labelValues (labels : List (String × String)) : List String → Option (List String)
  | [] => some []
  | n :: rest =>
    match lookupLabel n labels with
    | none => none
    | some v => (labelValues labels rest).map (fun vs => v :: vs)

/-- `Metric::add_sample`: build the label-value tuple (panicking on a
missing label), panic on any supplied label name that is not
registered, then insert the sample keyed by the tuple. -/
def Metric.add_sample (m : Metric) (labels : List (String × String)) (value : Number) :
    Option Metric :=
  match labelValues labels m.label_names with
  | none => none
  | some lv =>
    if labels.all (fun p => m.label_names.contains p.1) then
      some { m with samples := mapInsertBy keysLtB lv value m.samples }
    else none

/-- `openmetrics.rs` `escape_openmetrics_into`: escape backslash,
double quote and newline. -/
def escape_openmetrics (s : String) : String :=
  s.data.foldl
    (fun acc c =>
      if c = '\\' ∨ c = '"' then acc ++ "\\" ++ String.singleton c
      else if c = '\n' then acc ++ "\\n"
      else acc ++ String.singleton c)
    ""

/-- Textual rendering of a sample value.  The integer case is Rust's
`i64` Display; the float cases stand in for Rust's shortest-round-trip
`f64` Display, which is not representable over the exact decimal model.
What matters for the claims is that this is a function of the value. -/
def renderNumber : Number → String
  | .integer i => toString i
  | .float (.finite m e) => toString m ++ "e" ++ toString e
  | .float (.infinite neg) => if neg then "-inf" else "inf"
  | .float .nan => "NaN"

/-- One `name="value"` label pair list of a sample line, label names
zipped with the sample's label-value tuple. -/
def labelBlock (names vals : List String) : String :=
  joinWith ','
    ((names.zip vals).map (fun p => p.1 ++ "=\"" ++ escape_openmetrics p.2 ++ "\""))

/-- One sample line of `Metric::write`: name, kind-dependent suffix,
the brace-wrapped label block when the metric has labels, and the
rendered value. -/
def sampleLine (m : Metric) (lv : List String) (v : Number) : String :=
  m.name ++ m.kind.openmetrics_metric_suffix ++
    (if m.label_names.length > 0 then "\x7b" ++ labelBlock m.label_names lv ++ "\x7d"
     else "") ++
    " " ++ renderNumber v ++ "\n"

/-- `Metric::write`: the `# TYPE` line, optional `# UNIT` and `# HELP`
lines, then one line per sample in the stored (key-sorted) order.  The
source's per-sample `assert_eq!` of label-name and tuple lengths is
omitted: `add_sample` constructs every tuple from the label-name list,
so the two lengths agree by construction. -/
def Metric.write (m : Metric) : String :=
  "# TYPE " ++ m.name ++ " " ++ m.kind.as_openmetrics ++ "\n" ++
    (match m.unit with
     | some u => "# UNIT " ++ m.name ++ " " ++ u ++ "\n"
     | none => "") ++
    (match m.help with
     | some h => "# HELP " ++ m.name ++ " " ++ escape_openmetrics h ++ "\n"
     | none => "") ++
    String.join (m.samples.map (fun p => sampleLine m p.1 p.2))

/-- `openmetrics.rs` `MetricDatabase`: a `BTreeMap` from metric name to
metric, modelled as a name-sorted association list. -/
abbrev MetricDatabase := List (String × Metric)

/-- `MetricDatabase::write`: concatenate the metrics in stored
(name-sorted) order. -/
def MetricDatabase.write (db : MetricDatabase) : String :=
  String.join (db.map (fun p => Metric.write p.2))

/-- `BTreeMap::get` on the metric database. -/
def dbFind (name : String) : MetricDatabase → Option Metric
  | [] => none
  | (n, m) :: rest => if n = name then some m else dbFind name rest

/-- Replace the metric stored under `name`, keeping its position. -/
def dbReplace (name : String) (m : Metric) : MetricDatabase → MetricDatabase
  | [] => []
  | (n, m') :: rest =>
    if n = name then (n, m) :: rest else (n, m') :: dbReplace name m rest

/-- `MetricDatabase::get_or_insert`: `entry(name).or_insert_with(...)`;
a fresh metric is built by `Metric::new`, whose panic propagates. -/
def get_or_insert (db : MetricDatabase) (name : String) (kind : MetricKind) :
    Option MetricDatabase :=
  match dbFind name db with
  | some _ => some db
  | none => (Metric.new name kind).map (fun m => mapInsertBy strLtB name m db)

/-- One mutation performed on the metric returned by `get_or_insert`
(the mutations `handle_request` performs through the `&mut Metric`). -/
inductive MetricMut
  | setHelpM (h : Option String)
  | setUnitM (u : Option String)
  | addLabelM (label : String)
  | addSampleM (labels : List (String × String)) (value : Number)

/-- Apply one mutation; `none` propagates the panic of the operation. -/
def applyMut (m : Metric) : MetricMut → Option Metric
  | .setHelpM h => m.set_help h
  | .setUnitM u => m.set_unit u
  | .addLabelM l => m.add_label l
  | .addSampleM labels v => m.add_sample labels v

/-- Apply a list of mutations in order. -/
def applyMuts : Metric → List MetricMut → Option Metric
  | m, [] => some m
  | m, mu :: rest =>
    match applyMut m mu with
    | none => none
    | some m' => applyMuts m' rest

/-- One `handle_request` step on the database: `get_or_insert` a metric
and mutate it in place. -/
structure DbOp where
  name : String
  kind : MetricKind
  muts : List MetricMut

/-- Perform one `DbOp`. -/
def applyOp (db : MetricDatabase) (op : DbOp) : Option MetricDatabase :=
  match get_or_insert db op.name op.kind with
  | none => none
  | some db' =>
    match dbFind op.name db' with
    | none => none
    | some m =>
      match applyMuts m op.muts with
      | none => none
      | some m' => some (dbReplace op.name m' db')

/-- Run a list of `DbOp`s against a starting database. -/
def buildDbFrom (db : MetricDatabase) : List DbOp → Option MetricDatabase
  | [] => some db
  | op :: rest =>
    match applyOp db op with
    | none => none
    | some db' => buildDbFrom db' rest

/-- The database a scrape builds: every registry reachable by
`handle_request` arises this way from the empty registry. -/
def buildDb (ops : List DbOp) : Option MetricDatabase :=
  buildDbFrom [] ops

/-- Concrete `DESCRIBE` oracle for the enumeration scenario: indices 0
and 1 answer frames with identifiers `A` and `B`, index 2 answers
`NOSUCHOBJECT`. -/
def respScenario : Nat → Except RErr String
  | 0 => .ok ("DESCRIBE Port.0\nIdentifier:string:A")
  | 1 => .ok ("DESCRIBE Port.1\nIdentifier:string:B")
  | _ => .ok ("NOSUCHOBJECT")

/-- Concrete `DESCRIBE` oracle whose index-0 frame has payload
`NOSUCHOBJECT` behind an echoed command, while index 1 answers the bare
`NOSUCHOBJECT` frame. -/
def respEchoedMarker : Nat → Except RErr String
  | 0 => .ok ("DESCRIBE Port.0\nNOSUCHOBJECT")
  | _ => .ok ("NOSUCHOBJECT")

/-- Concrete configuration for witnesses. -/
def cfgW : RadiatorConfig := { username := "user", password := "pass" }

/-- Concrete socket state with an installed writer, for witnesses. -/
def stW : SocketState := { socket_writer := some 0, readerSent := [] }

/-- Concrete connect oracle where every I/O step succeeds and the
server answers `LOGGEDIN`. -/
def connEnvOkW : ConnEnv :=
  { tcpResult := none, writeResult := none,
    loginRead := Except.ok ("LOGGEDIN\u0000"), newConnId := 1 }

/-- Concrete `communicate_inner` oracle: the write succeeds but the
reader's death flag is set at the post-write check. -/
def envGoneW : CommEnv :=
  { write1 := none, connEnv := connEnvOkW, write2 := none,
    socketGone := true, channel := some ("STATS .\nA:1") }

/-- Concrete `communicate_inner` oracle: the first write fails, the
reconnect and the retried write succeed, and the channel delivers a
response. -/
def envRetryW : CommEnv :=
  { write1 := some 7, connEnv := connEnvOkW, write2 := none,
    socketGone := false, channel := some ("STATS .\nA:1") }

/-- The events one connection's read loop should produce according to
the specification: each complete frame (NUL stripped) that does not
start with `LOG ` is forwarded in order, and the connection's end marks
the death flag. -/
def socketEvents (stream : List Nat) : List REvent :=
  ((((nulChunks stream).1.map (fun c => c.dropLast)).filter
      (fun f => !(logPrefix.isPrefixOf f))).map REvent.forward)
    ++ [REvent.markDead]

/-- Concrete metric with one registered label, for the label-set
witness. -/
def metricW : Metric :=
  { name := "up", kind := MetricKind.gauge, help := none, unit := none,
    label_names := ["job"], samples := [] }

/-- Concrete registry operations for the serialization witness: a
metric inserted out of lexical name order and samples recorded out of
label-tuple order. -/
def opsW : List DbOp :=
  [{ name := "b_metric", kind := MetricKind.gauge,
     muts := [MetricMut.addLabelM "job",
              MetricMut.addSampleM [("job", "z")] (Number.integer 1),
              MetricMut.addSampleM [("job", "a")] (Number.integer 2)] },
   { name := "a_metric", kind := MetricKind.counter,
     muts := [MetricMut.addSampleM [] (Number.integer 3)] }]

/-- The registry `opsW` builds: names re-sorted lexically, sample keys
re-sorted by label tuple. -/
def dbW : MetricDatabase :=
  [("a_metric",
    { name := "a_metric", kind := MetricKind.counter, help := none, unit := none,
      label_names := [], samples := [([], Number.integer 3)] }),
   ("b_metric",
    { name := "b_metric", kind := MetricKind.gauge, help := none, unit := none,
      label_names := ["job"],
      samples := [(["a"], Number.integer 2), (["z"], Number.integer 1)] })]

/- ------------------------------------------------------------------
Theorems.
------------------------------------------------------------------ -/

/-- Unrolling lemma for the enumeration loop: if the responses at the
`k` indices starting at `i` are all successful non-`NOSUCHOBJECT`
frames and index `i + k` answers `NOSUCHOBJECT`, the loop returns the
accumulator extended by the identifiers collected from those `k`
indices. -/
theorem enumerate_objects_run (resp : Nat → Except RErr String) :
    ∀ (k i : Nat) (acc : List (Nat × String)) (fuel : Nat),
    (∀ j, j < k → ∃ r, resp (i + j) = .ok r ∧ r ≠ "NOSUCHOBJECT") →
    resp (i + k) = .ok ("NOSUCHOBJECT") → k < fuel →
    enumerate_objects resp fuel i acc = EnumOut.done (acc ++ collectFrom resp i k) := by
  intro k
  induction k with
  | zero =>
    intro i acc fuel _ hend hfuel
    obtain ⟨f, rfl⟩ : ∃ f, fuel = f + 1 := ⟨fuel - 1, by omega⟩
    simp only [enumerate_objects]
    rw [show i + 0 = i from rfl] at hend
    rw [hend]
    simp [collectFrom]
  | succ k ih =>
    intro i acc fuel hpre hend hfuel
    obtain ⟨f, rfl⟩ : ∃ f, fuel = f + 1 := ⟨fuel - 1, by omega⟩
    obtain ⟨r, hr, hrne⟩ := hpre 0 (Nat.succ_pos k)
    rw [show i + 0 = i from rfl] at hr
    simp only [enumerate_objects]
    rw [hr]
    simp only [hrne, if_false]
    have hpre' : ∀ j, j < k → ∃ r, resp (i + 1 + j) = .ok r ∧ r ≠ "NOSUCHOBJECT" := by
      intro j hj
      have := hpre (j + 1) (by omega)
      rwa [show i + (j + 1) = i + 1 + j by omega] at this
    have hend' : resp (i + 1 + k) = .ok ("NOSUCHOBJECT") := by
      rwa [show i + (k + 1) = i + 1 + k by omega] at hend
    have hf : k < f := by omega
    cases hid : extract_identifier r with
    | none =>
      exact (ih (i + 1) acc f hpre' hend' hf).trans (by simp [collectFrom, hr, hid])
    | some id =>
      exact (ih (i + 1) (acc ++ [(i, id)]) f hpre' hend' hf).trans
        (by simp [collectFrom, hr, hid])

/-- C1, counterexample: the enumerator does not stop at an index whose
response *payload* equals `NOSUCHOBJECT`.  Under `respEchoedMarker` the
index-0 frame's payload is exactly `NOSUCHOBJECT`, yet one loop
iteration does not finish the enumeration (the loop consults index 1,
whose bare `NOSUCHOBJECT` frame then ends it), contradicting the claim
that enumeration stops exactly at the payload marker. -/
theorem claim1_counterexample :
    payloadAfterNewline ("DESCRIBE Port.0\nNOSUCHOBJECT") = some ("NOSUCHOBJECT")
    ∧ enumerate_objects respEchoedMarker 1 0 [] = EnumOut.fuelOut
    ∧ enumerate_objects respEchoedMarker 2 0 [] = EnumOut.done [] := by
  refine ⟨by decide, by decide, by decide⟩

/-- C1 (amended): the enumerator issues `DESCRIBE {kind}.{i}` for
`i = 0, 1, 2, ...` and stops exactly when the *entire response frame*
equals `NOSUCHOBJECT`; an earlier index whose identifier extraction
fails is skipped and enumeration continues, so the produced map is the
identifier collected from every earlier index that has one. -/
theorem claim1_amended_enumeration (resp : Nat → Except RErr String) (n fuel : Nat)
    (hpre : ∀ j, j < n → ∃ r, resp j = .ok r ∧ r ≠ "NOSUCHOBJECT")
    (hend : resp n = .ok ("NOSUCHOBJECT")) (hfuel : n < fuel) :
    enumerate_objects resp fuel 0 [] = EnumOut.done (collectFrom resp 0 n) := by
  have := enumerate_objects_run resp n 0 [] fuel (by simpa using hpre) (by simpa using hend) hfuel
  simpa using this

/-- C1, witness: the claim's scenario.  Indices 0 and 1 yield
identifiers `A` and `B` and index 2 answers `NOSUCHOBJECT`, so the
enumeration yields exactly the mapping `{0: A, 1: B}`. -/
theorem claim1_witness :
    enumerate_objects respScenario 3 0 [] = EnumOut.done [(0, "A"), (1, "B")] := by
  have h := claim1_amended_enumeration respScenario 2 3
    (by
      intro j hj
      match j, hj with
      | 0, _ => exact ⟨_, rfl, by decide⟩
      | 1, _ => exact ⟨_, rfl, by decide⟩)
    rfl (by omega)
  exact h.trans (by decide)

/-- `connect_to_radiator` never fails with `ReaderGone`: its failures
are I/O errors, `InvalidCredentials` or `UnexpectedLoginResponse`. -/
theorem connect_to_radiator_no_reader_gone (config : RadiatorConfig) (env : ConnEnv)
    (st : SocketState) :
    (connect_to_radiator config env st).2.2 ≠ Except.error RErr.readerGone := by
  unfold connect_to_radiator
  cases env.tcpResult with
  | some e => simp
  | none =>
    cases env.writeResult with
    | some e => simp
    | none =>
      cases env.loginRead with
      | error e => simp
      | ok buf =>
        by_cases h1 : buf = "LOGGEDIN\u0000" <;> by_cases h2 : buf = "BADLOGIN\u0000" <;>
          simp [h1, h2]

/-- On the panic-free paths (writer installed, command free of NUL
bytes), `communicate_inner` returns exactly `innerSpec`. -/
theorem communicate_inner_eq (config : RadiatorConfig) (command : String) (env : CommEnv)
    (st : SocketState) (w : Nat) (hw : st.socket_writer = some w)
    (hnul : command.data.contains (Char.ofNat 0) = false) :
    communicate_inner config command env st = some (innerSpec config command env st) := by
  unfold communicate_inner innerSpec write_command
  rw [hw]
  simp only [hnul, Bool.false_eq_true, if_false]
  cases env.write1 with
  | none => rfl
  | some e1 =>
    cases hrec : (connect_to_radiator config env.connEnv st).2.2 with
    | error e => simp [hrec]
    | ok u =>
      cases u
      cases env.write2 with
      | none => simp [hrec]
      | some e2 => simp [hrec]

/-- Every successful run of `communicate_inner` produces `innerSpec`. -/
theorem communicate_inner_some (config : RadiatorConfig) (command : String) (env : CommEnv)
    (st : SocketState) (out : InnerOut)
    (h : communicate_inner config command env st = some out) :
    out = innerSpec config command env st := by
  cases hw : st.socket_writer with
  | none => rw [communicate_inner, hw] at h; exact absurd h (by simp)
  | some w =>
    by_cases hnul : command.data.contains (Char.ofNat 0)
    · rw [communicate_inner, hw] at h
      rw [write_command, if_pos hnul] at h
      exact absurd h (by simp)
    · have := communicate_inner_eq config command env st w hw (by simpa using hnul)
      rw [this] at h
      exact (Option.some.inj h).symm

/-- C2: a single `communicate_inner` attempt fails with `ReaderGone`
exactly when the write phase succeeded (first write succeeded, or the
reconnect and the retried write succeeded) and the death flag was
raised or the delivery channel is closed; the public `communicate`
returns a first-attempt success or non-`ReaderGone` error immediately,
retries on `ReaderGone` (a retried attempt may succeed), and gives up
with `ReaderGone` after 3 failed attempts. -/
theorem claim2_reader_gone_policy :
    (∀ (config : RadiatorConfig) (command : String) (env : CommEnv) (st : SocketState)
        (out : InnerOut),
      communicate_inner config command env st = some out →
      (out.result = Except.error RErr.readerGone ↔
        ((env.write1 = none ∨
            ((connect_to_radiator config env.connEnv st).2.2 = Except.ok () ∧
              env.write2 = none)) ∧
          (env.socketGone = true ∨ env.channel = none))))
    ∧ (∀ (config : RadiatorConfig) (command : String) (envs : Nat → CommEnv)
        (st : SocketState) (out : InnerOut) (v : String),
      communicate_inner config command (envs 0) st = some out →
      out.result = Except.ok v →
      communicate config command envs st = some (Except.ok v))
    ∧ (∀ (config : RadiatorConfig) (command : String) (envs : Nat → CommEnv)
        (st : SocketState) (out : InnerOut) (e : RErr),
      communicate_inner config command (envs 0) st = some out →
      out.result = Except.error e → e ≠ RErr.readerGone →
      communicate config command envs st = some (Except.error e))
    ∧ (∀ (config : RadiatorConfig) (command : String) (envs : Nat → CommEnv)
        (st : SocketState) (out0 out1 out2 : InnerOut),
      communicate_inner config command (envs 0) st = some out0 →
      out0.result = Except.error RErr.readerGone →
      communicate_inner config command (envs 1) out0.state = some out1 →
      out1.result = Except.error RErr.readerGone →
      communicate_inner config command (envs 2) out1.state = some out2 →
      out2.result = Except.error RErr.readerGone →
      communicate config command envs st = some (Except.error RErr.readerGone))
    ∧ (∀ (config : RadiatorConfig) (command : String) (envs : Nat → CommEnv)
        (st : SocketState) (out0 out1 : InnerOut) (v : String),
      communicate_inner config command (envs 0) st = some out0 →
      out0.result = Except.error RErr.readerGone →
      communicate_inner config command (envs 1) out0.state = some out1 →
      out1.result = Except.ok v →
      communicate config command envs st = some (Except.ok v)) := by
  refine ⟨?_, ?_, ?_, ?_, ?_⟩
  · intro config command env st out h
    rw [communicate_inner_some config command env st out h]
    cases h1 : env.write1 with
    | none =>
      simp only [innerSpec, h1, awaitResponse]
      by_cases hg : env.socketGone
      · simp [hg]
      · cases hc : env.channel with
        | some msg => simp [hg, hc]
        | none => simp [hg, hc]
    | some e1 =>
      simp only [innerSpec, h1]
      cases hrec : (connect_to_radiator config env.connEnv st).2.2 with
      | error e =>
        have hne := connect_to_radiator_no_reader_gone config env.connEnv st
        rw [hrec] at hne
        have he : e ≠ RErr.readerGone := fun hh => hne (by rw [hh])
        simp [hrec, he]
      | ok u =>
        cases u
        cases h2 : env.write2 with
        | some e2 => simp [hrec, h2]
        | none =>
          simp only [hrec, h2, awaitResponse]
          by_cases hg : env.socketGone
          · simp [hg]
          · cases hc : env.channel with
            | some msg => simp [hg, hc]
            | none => simp [hg, hc]
  · intro config command envs st out v h hres
    simp [communicate, communicate_go, h, hres]
  · intro config command envs st out e h hres hne
    cases e with
    | io c => simp [communicate, communicate_go, h, hres]
    | invalidCredentials => simp [communicate, communicate_go, h, hres]
    | unexpectedLoginResponse r => simp [communicate, communicate_go, h, hres]
    | readerGone => exact absurd rfl hne
  · intro config command envs st out0 out1 out2 h0 hr0 h1 hr1 h2 hr2
    simp [communicate, communicate_go, h0, hr0, h1, hr1, h2, hr2]
  · intro config command envs st out0 out1 v h0 hr0 h1 hr1
    simp [communicate, communicate_go, h0, hr0, h1, hr1]

/-- C2, witness: with a successful write and the death flag raised, the
attempt fails with `ReaderGone`. -/
theorem claim2_witness :
    ∃ out, communicate_inner cfgW "STATS ." envGoneW stW = some out
      ∧ out.result = Except.error RErr.readerGone := by
  have hinner : communicate_inner cfgW "STATS ." envGoneW stW
      = some (innerSpec cfgW "STATS ." envGoneW stW) := by decide
  exact ⟨_, hinner,
    (claim2_reader_gone_policy.1 cfgW "STATS ." envGoneW stW _ hinner).mpr (by decide)⟩

/-- After a TCP connect that does not fail, the reconnect writes
exactly the login frame built from the current credentials. -/
theorem connect_to_radiator_trace (config : RadiatorConfig) (env : ConnEnv)
    (st : SocketState) (h : env.tcpResult = none) :
    (connect_to_radiator config env st).2.1 =
      ["BINARY\r\nLOGIN " ++ config.username ++ " " ++ config.password ++ "\u0000"] := by
  unfold connect_to_radiator
  rw [h]
  cases env.writeResult with
  | some e => rfl
  | none =>
    cases env.loginRead with
    | error e => rfl
    | ok buf =>
      by_cases h1 : buf = "LOGGEDIN\u0000" <;> by_cases h2 : buf = "BADLOGIN\u0000" <;>
        simp [h1, h2]

/-- `awaitResponse` only chooses the result; the state it reports is
the one it was given. -/
theorem awaitResponse_state (env : CommEnv) (st : SocketState) (wrote : List String)
    (rc : Nat) : (awaitResponse env st wrote rc).state = st := by
  unfold awaitResponse
  by_cases hg : env.socketGone
  · simp [hg]
  · cases hc : env.channel <;> simp [hg, hc]

/-- `awaitResponse` reports exactly the frames it was given as written. -/
theorem awaitResponse_wrote (env : CommEnv) (st : SocketState) (wrote : List String)
    (rc : Nat) : (awaitResponse env st wrote rc).wrote = wrote := by
  unfold awaitResponse
  by_cases hg : env.socketGone
  · simp [hg]
  · cases hc : env.channel <;> simp [hg, hc]

/-- `awaitResponse` reports exactly the reconnect count it was given. -/
theorem awaitResponse_reconnects (env : CommEnv) (st : SocketState) (wrote : List String)
    (rc : Nat) : (awaitResponse env st wrote rc).reconnects = rc := by
  unfold awaitResponse
  by_cases hg : env.socketGone
  · simp [hg]
  · cases hc : env.channel <;> simp [hg, hc]

/-- C4: when the first write of a command fails, `communicate_inner`
reconnects exactly once with the current credentials; a reconnect error
becomes the call's result (the command was written once); a successful
reconnect is followed by exactly one write retry, whose failure fails
the call and whose success (with the death flag clear and a response on
the channel) returns the fresh response. -/
theorem claim4_reconnect_once (config : RadiatorConfig) (command : String) (env : CommEnv)
    (st : SocketState) (out : InnerOut) (e1 : Nat)
    (h : communicate_inner config command env st = some out)
    (hw1 : env.write1 = some e1) :
    out.reconnects = 1
    ∧ (∀ ce, (connect_to_radiator config env.connEnv st).2.2 = Except.error ce →
        out.result = Except.error ce
        ∧ out.wrote = [command ++ "\u0000"] ++ (connect_to_radiator config env.connEnv st).2.1)
    ∧ ((connect_to_radiator config env.connEnv st).2.2 = Except.ok () →
        out.wrote = [command ++ "\u0000"] ++ (connect_to_radiator config env.connEnv st).2.1
          ++ [command ++ "\u0000"]
        ∧ out.state = (connect_to_radiator config env.connEnv st).1
        ∧ (∀ e2, env.write2 = some e2 → out.result = Except.error (RErr.io e2))
        ∧ (env.write2 = none → env.socketGone = false → ∀ r, env.channel = some r →
            out.result = Except.ok r))
    ∧ (env.connEnv.tcpResult = none →
        (connect_to_radiator config env.connEnv st).2.1 =
          ["BINARY\r\nLOGIN " ++ config.username ++ " " ++ config.password ++ "\u0000"]) := by
  rw [communicate_inner_some config command env st out h]
  refine ⟨?_, ?_, ?_, ?_⟩
  · cases hrec : (connect_to_radiator config env.connEnv st).2.2 with
    | error e => simp [innerSpec, hw1, hrec]
    | ok u =>
      cases u
      cases h2 : env.write2 with
      | some e2 => simp [innerSpec, hw1, hrec, h2]
      | none => simp [innerSpec, hw1, hrec, h2, awaitResponse_reconnects]
  · intro ce hce
    simp [innerSpec, hw1, hce]
  · intro hok
    simp only [innerSpec, hw1, hok]
    refine ⟨?_, ?_, ?_, ?_⟩
    · cases h2 : env.write2 with
      | some e2 => simp [h2]
      | none => simp [h2, awaitResponse_wrote]
    · cases h2 : env.write2 with
      | some e2 => simp [h2]
      | none => simp [h2, awaitResponse_state]
    · intro e2 h2
      simp [h2]
    · intro h2 hg r hr
      simp [h2, awaitResponse, hg, hr]
  · intro htcp
    exact connect_to_radiator_trace config env.connEnv st htcp

/-- C4, witness: a failed first write followed by a successful
reconnect and retried write delivers the fresh response. -/
theorem claim4_witness :
    ∃ out, communicate_inner cfgW "STATS ." envRetryW stW = some out
      ∧ out.result = Except.ok ("STATS .\nA:1")
      ∧ out.reconnects = 1 := by
  have hinner : communicate_inner cfgW "STATS ." envRetryW stW
      = some (innerSpec cfgW "STATS ." envRetryW stW) := by decide
  have h4 := claim4_reconnect_once cfgW "STATS ." envRetryW stW _ 7 hinner (by decide)
  refine ⟨_, hinner, ?_, h4.1⟩
  exact (h4.2.2.1 (by decide)).2.2.2 (by decide) (by decide) _ (by decide)

/-- C5, counterexample: the login frame the code sends has no space
between the mode switch and `LOGIN` — it is `BINARY\r\nLOGIN user
pass\0` and not the claimed `BINARY\r\n LOGIN user pass\0`. -/
theorem claim5_counterexample :
    (connect_to_radiator cfgW connEnvOkW stW).2.1 = ["BINARY\r\nLOGIN user pass\u0000"]
    ∧ ("BINARY\r\nLOGIN user pass\u0000" : String) ≠ "BINARY\r\n LOGIN user pass\u0000" :=
  ⟨by decide, by decide⟩

/-- C5 (amended): `connect` sends the single login frame
`BINARY\r\nLOGIN {user} {pass}\0` (no space after the CRLF) and reads
one NUL-terminated frame; exactly `LOGGEDIN` succeeds and installs the
new write-half and hands the new read-half to the reader task, exactly
`BADLOGIN` fails with `InvalidCredentials`, anything else fails with
`UnexpectedLoginResponse`. -/
theorem claim5_amended_login (config : RadiatorConfig) (env : ConnEnv) (st : SocketState)
    (htcp : env.tcpResult = none) (hwr : env.writeResult = none)
    (resp : String) (hr : env.loginRead = Except.ok resp) :
    (connect_to_radiator config env st).2.1 =
      ["BINARY\r\nLOGIN " ++ config.username ++ " " ++ config.password ++ "\u0000"]
    ∧ (resp = "LOGGEDIN\u0000" →
        (connect_to_radiator config env st).2.2 = Except.ok ()
        ∧ (connect_to_radiator config env st).1.socket_writer = some env.newConnId
        ∧ (connect_to_radiator config env st).1.readerSent
            = st.readerSent ++ [env.newConnId])
    ∧ (resp = "BADLOGIN\u0000" →
        (connect_to_radiator config env st).2.2 = Except.error RErr.invalidCredentials
        ∧ (connect_to_radiator config env st).1 = st)
    ∧ (resp ≠ "LOGGEDIN\u0000" → resp ≠ "BADLOGIN\u0000" →
        (connect_to_radiator config env st).2.2
          = Except.error (RErr.unexpectedLoginResponse resp)
        ∧ (connect_to_radiator config env st).1 = st) := by
  refine ⟨connect_to_radiator_trace config env st htcp, ?_, ?_, ?_⟩
  · intro h1
    simp [connect_to_radiator, htcp, hwr, hr, h1]
  · intro h1
    simp [connect_to_radiator, htcp, hwr, hr, h1]
  · intro h1 h2
    simp [connect_to_radiator, htcp, hwr, hr, h1, h2]

/-- C5, witness: a `LOGGEDIN` answer over clean I/O yields success and
installs the fresh write-half. -/
theorem claim5_witness :
    (connect_to_radiator cfgW connEnvOkW stW).2.2 = Except.ok ()
    ∧ (connect_to_radiator cfgW connEnvOkW stW).1.socket_writer = some 1 := by
  have h := claim5_amended_login cfgW connEnvOkW stW (by decide) (by decide)
    ("LOGGEDIN\u0000") (by decide)
  have hs := h.2.1 rfl
  exact ⟨hs.1, hs.2.1⟩

/-- C3: the metric-name grammar of the claim coincides exactly with
what `Metric::new` accepts, but the startup validation `check_metric`
does not accept every grammar-conforming name: its first-character test
parenthesizes as `alpha || (start == '_' && start == ':')`, whose right
operand is unsatisfiable, so names starting with `_` or `:` (accepted
by the grammar, by `Metric::new`, and announced by `check_metric`'s own
error message) are rejected by the validation. -/
theorem claim3_name_validation_bug :
    (∀ s, metric_new_name_ok s = metric_name_grammar s)
    ∧ metric_name_grammar "_up" = true
    ∧ metric_new_name_ok "_up" = true
    ∧ check_metric_name "_up" = false
    ∧ metric_name_grammar ":up" = true
    ∧ check_metric_name ":up" = false
    ∧ check_metric_name "up" = true
    ∧ metric_name_grammar "" = false
    ∧ metric_new_name_ok "" = false
    ∧ check_metric_name "" = false :=
  ⟨fun _ => rfl, by decide, by decide, by decide, by decide, by decide, by decide,
    by decide, by decide, by decide⟩

/-- `splitOnce` finds exactly the first occurrence of the delimiter. -/
theorem splitOnce_not_mem (c : Char) :
    ∀ (l rest : List Char), c ∉ l → splitOnce c (l ++ c :: rest) = some (l, rest) := by
  intro l
  induction l with
  | nil => intro rest _; simp [splitOnce]
  | cons x xs ih =>
    intro rest h
    have hx : x ≠ c := fun he => h (he ▸ List.mem_cons_self x xs)
    simp only [List.cons_append, splitOnce, if_neg hx, List.append_eq]
    rw [ih rest (fun hm => h (List.mem_cons_of_mem x hm))]
    rfl

/-- A delimiter-free list is one single `splitAll` piece. -/
theorem splitAll_no_delim (c : Char) :
    ∀ (l : List Char), c ∉ l → splitAll c l = [l] := by
  intro l
  induction l with
  | nil => intro _; rfl
  | cons x xs ih =>
    intro h
    have hx : x ≠ c := fun he => h (he ▸ List.mem_cons_self x xs)
    simp only [splitAll, if_neg hx]
    rw [ih (fun hm => h (List.mem_cons_of_mem x hm))]

/-- `splitAll` peels one delimiter-free piece off the front. -/
theorem splitAll_cons_delim (c : Char) :
    ∀ (l t : List Char), c ∉ l → splitAll c (l ++ c :: t) = l :: splitAll c t := by
  intro l
  induction l with
  | nil => intro t _; simp [splitAll]
  | cons x xs ih =>
    intro t h
    have hx : x ≠ c := fun he => h (he ▸ List.mem_cons_self x xs)
    simp only [List.cons_append, splitAll, if_neg hx, List.append_eq]
    rw [ih t (fun hm => h (List.mem_cons_of_mem x hm))]

/-- Appending strings concatenates their character lists. -/
theorem string_data_append (a b : String) : (a ++ b).data = a.data ++ b.data := rfl

/-- Rebuilding a string from its character list is the identity. -/
theorem string_mk_data (s : String) : String.mk s.data = s := rfl

/-- `splitAll` inverts `joinWith` on a nonempty list of delimiter-free
pieces. -/
theorem splitAll_joinWith (c : Char) :
    ∀ (items : List String), items ≠ [] → (∀ it ∈ items, c ∉ it.data) →
    splitAll c (joinWith c items).data = items.map String.data := by
  intro items
  induction items with
  | nil => intro h _; exact absurd rfl h
  | cons s rest ih =>
    intro _ hfree
    cases rest with
    | nil =>
      simp only [joinWith, List.map]
      exact splitAll_no_delim c s.data (hfree s (List.mem_cons_self s []))
    | cons s2 rest2 =>
      have hd : (s ++ String.singleton c ++ joinWith c (s2 :: rest2)).data
          = s.data ++ c :: (joinWith c (s2 :: rest2)).data := by
        simp [string_data_append, String.singleton]
      simp only [joinWith, hd]
      rw [splitAll_cons_delim c s.data _ (hfree s (List.mem_cons_self s _))]
      rw [ih (by simp) (fun it hm => hfree it (List.mem_cons_of_mem s hm))]
      rfl

/-- Inserting a binding makes its value the one observed for its key:
the last occurrence of a key wins. -/
theorem lookupStat_insertReplace (k : String) (v : Number) :
    ∀ (m : List (String × Number)), lookupStat k (insertReplace k v m) = some v := by
  intro m
  induction m with
  | nil => simp [insertReplace, lookupStat]
  | cons p rest ih =>
    cases p with
    | mk k' v' =>
      by_cases hk : k' = k
      · simp [insertReplace, hk, lookupStat]
      · simp only [insertReplace, if_neg hk, lookupStat]
        exact ih

/-- C6: `decode_stats` drops the echoed command up to the first
newline and folds the U+0001-delimited items; an item without a colon
or with a value that parses neither as `i64` nor as `f64` is skipped;
an item splits at its first colon; an inserted key's value is the one
later lookups observe (last occurrence wins); values try `i64` before
`f64`; and the claim's scenario payload decodes to
`{k1: integer 11, k2: float 3.5}` with `bad` skipped. -/
theorem claim6_decode_stats :
    (∀ (echo : String) (items : List String),
      '\n' ∉ echo.data → items ≠ [] →
      (∀ it ∈ items, Char.ofNat 1 ∉ it.data) →
      decode_stats (echo ++ "\n" ++ joinWith (Char.ofNat 1) items) = some (decodeItems items))
    ∧ (∀ acc it, splitOnce ':' it.data = none → stepItem acc it = acc)
    ∧ (∀ acc it k v, splitOnce ':' it.data = some (k, v) →
        parseValue (String.mk v) = none → stepItem acc it = acc)
    ∧ (∀ acc it k v num, splitOnce ':' it.data = some (k, v) →
        parseValue (String.mk v) = some num →
        stepItem acc it = insertReplace (String.mk k) num acc)
    ∧ (∀ (k v : String), ':' ∉ k.data →
        splitOnce ':' (k ++ ":" ++ v).data = some (k.data, v.data))
    ∧ (∀ m k v, lookupStat k (insertReplace k v m) = some v)
    ∧ (∀ v i, parseI64 v.data = some i → parseValue v = some (Number.integer i))
    ∧ (∀ v f, parseI64 v.data = none → parseF64 v.data = some f →
        parseValue v = some (Number.float f))
    ∧ decode_stats ("STATS .\nk1:10" ++ "\u0001" ++ "k2:3.5" ++ "\u0001" ++ "bad"
        ++ "\u0001" ++ "k1:11")
      = some [("k1", Number.integer 11), ("k2", Number.float (FloatVal.finite 35 (-1)))] := by
  refine ⟨?_, ?_, ?_, ?_, ?_, ?_, ?_, ?_, ?_⟩
  · intro echo items hne hnonempty hfree
    have hd : (echo ++ "\n" ++ joinWith (Char.ofNat 1) items).data
        = echo.data ++ '\n' :: (joinWith (Char.ofNat 1) items).data := by
      simp [string_data_append]
    unfold decode_stats
    rw [hd, splitOnce_not_mem '\n' echo.data _ hne]
    simp [splitAll_joinWith (Char.ofNat 1) items hnonempty hfree, List.map_map,
      Function.comp_def, string_mk_data]
  · intro acc it h
    simp [stepItem, h]
  · intro acc it k v h hp
    simp [stepItem, h, hp]
  · intro acc it k v num h hp
    simp [stepItem, h, hp]
  · intro k v hk
    have hd : (k ++ ":" ++ v).data = k.data ++ ':' :: v.data := by
      simp [string_data_append]
    rw [hd]
    exact splitOnce_not_mem ':' k.data v.data hk
  · intro m k v
    exact lookupStat_insertReplace k v m
  · intro v i h
    simp [parseValue, h]
  · intro v f h hf
    simp [parseValue, h, hf]
  · decide

/-- C6, witness: the universal part of the claim applied to the
scenario frame, whose echoed command is `STATS .` and whose items are
`k1:10`, `k2:3.5`, `bad`, `k1:11`. -/
theorem claim6_witness :
    decode_stats ("STATS ." ++ "\n"
        ++ joinWith (Char.ofNat 1) ["k1:10", "k2:3.5", "bad", "k1:11"])
      = some (decodeItems ["k1:10", "k2:3.5", "bad", "k1:11"]) := by
  exact claim6_decode_stats.1 ("STATS .") ["k1:10", "k2:3.5", "bad", "k1:11"]
    (by decide) (by decide) (by decide)

/-- A label lookup fails exactly when the key is absent from the map. -/
theorem lookupLabel_none_iff (k : String) :
    ∀ (labels : List (String × String)),
    lookupLabel k labels = none ↔ k ∉ labels.map Prod.fst := by
  intro labels
  induction labels with
  | nil => simp [lookupLabel]
  | cons p rest ih =>
    cases p with
    | mk k' v =>
      by_cases hk : k' = k
      · subst hk
        simp [lookupLabel]
      · simp only [lookupLabel, if_neg hk, List.map_cons, List.mem_cons]
        rw [ih]
        constructor
        · intro h hk2
          cases hk2 with
          | inl he => exact hk he.symm
          | inr hm => exact h hm
        · intro h hm
          exact h (Or.inr hm)

/-- Building the label-value tuple fails exactly when some registered
label name has no value in the supplied map. -/
theorem labelValues_none_iff (labels : List (String × String)) :
    ∀ (names : List String),
    labelValues labels names = none ↔ ∃ n, n ∈ names ∧ lookupLabel n labels = none := by
  intro names
  induction names with
  | nil => simp [labelValues]
  | cons n rest ih =>
    cases hl : lookupLabel n labels with
    | none =>
      simp only [labelValues, hl]
      exact ⟨fun _ => ⟨n, List.mem_cons_self n rest, hl⟩, fun _ => trivial⟩
    | some v =>
      simp only [labelValues, hl, Option.map_eq_none', ih, List.mem_cons]
      constructor
      · intro ⟨n', hm, hn⟩
        exact ⟨n', Or.inr hm, hn⟩
      · intro ⟨n', hm, hn⟩
        cases hm with
        | inl he => rw [he] at hn; rw [hl] at hn; exact absurd hn (by simp)
        | inr hm2 => exact ⟨n', hm2, hn⟩

/-- C8: `add_sample` succeeds exactly when the key set of the supplied
label map equals the metric's registered label-name set (a missing
label value or an unknown label name is the modelled panic); a
successful `add_sample` leaves the label-name set unchanged, and once a
sample is recorded `add_label` is the `assert!` panic — so the label
set observed at the first sample equals the set at every later one. -/
theorem claim8_label_set_invariant :
    (∀ (m : Metric) (labels : List (String × String)) (v : Number),
      (m.add_sample labels v).isSome = true ↔
        (∀ k, k ∈ labels.map Prod.fst ↔ k ∈ m.label_names))
    ∧ (∀ (m : Metric) (labels : List (String × String)) (v : Number) (m' : Metric),
        m.add_sample labels v = some m' → m'.label_names = m.label_names)
    ∧ (∀ (m : Metric) (l : String), m.samples ≠ [] → m.add_label l = none) := by
  refine ⟨?_, ?_, ?_⟩
  · intro m labels v
    unfold Metric.add_sample
    cases hlv : labelValues labels m.label_names with
    | none =>
      simp only [Option.isSome_none, Bool.false_eq_true, false_iff]
      intro hall
      obtain ⟨n, hn, hnone⟩ := (labelValues_none_iff labels m.label_names).mp hlv
      exact ((lookupLabel_none_iff n labels).mp hnone) ((hall n).mpr hn)
    | some lv =>
      by_cases hall : labels.all (fun p => m.label_names.contains p.1)
      · simp only [hall, if_true, Option.isSome_some, true_iff]
        intro k
        constructor
        · intro hk
          obtain ⟨p, hp, hpk⟩ := List.mem_map.mp hk
          have := List.all_eq_true.mp hall p hp
          rw [hpk] at this
          simpa using this
        · intro hk
          by_contra hk2
          have hnone := (lookupLabel_none_iff k labels).mpr hk2
          have : labelValues labels m.label_names = none :=
            (labelValues_none_iff labels m.label_names).mpr ⟨k, hk, hnone⟩
          rw [hlv] at this
          exact absurd this (by simp)
      · simp only [hall, if_false, Option.isSome_none, Bool.false_eq_true, false_iff]
        intro hiff
        apply hall
        rw [List.all_eq_true]
        intro p hp
        have : p.1 ∈ labels.map Prod.fst := List.mem_map.mpr ⟨p, hp, rfl⟩
        simpa using (hiff p.1).mp this
  · intro m labels v m' h
    unfold Metric.add_sample at h
    cases hlv : labelValues labels m.label_names with
    | none =>
      simp only [hlv] at h
      exact absurd h (by simp)
    | some lv =>
      simp only [hlv] at h
      by_cases hall : labels.all (fun p => m.label_names.contains p.1)
      · rw [if_pos hall] at h
        have := Option.some.inj h
        rw [← this]
      · rw [if_neg hall] at h
        exact absurd h (by simp)
  · intro m l h
    simp [Metric.add_label, h]

/-- The head of a `mapInsertBy` result carries the inserted key or the
key the list already started with. -/
theorem mapInsertBy_head_key {κ ν : Type} (lt : κ → κ → Bool) (k : κ) (v : ν) :
    ∀ (l : List (κ × ν)) (p : κ × ν), (mapInsertBy lt k v l).head? = some p →
      p.1 = k ∨ ∃ q, l.head? = some q ∧ p.1 = q.1 := by
  intro l p h
  cases l with
  | nil =>
    simp only [mapInsertBy, List.head?] at h
    cases Option.some.inj h
    exact Or.inl rfl
  | cons q rest =>
    cases q with
    | mk k' v' =>
      by_cases h1 : lt k k'
      · simp only [mapInsertBy, if_pos h1, List.head?] at h
        cases Option.some.inj h
        exact Or.inl rfl
      · by_cases h2 : lt k' k
        · simp only [mapInsertBy, if_neg h1, if_pos h2, List.head?] at h
          cases Option.some.inj h
          exact Or.inr ⟨(k', v'), rfl, rfl⟩
        · simp only [mapInsertBy, if_neg h1, if_neg h2, List.head?] at h
          cases Option.some.inj h
          exact Or.inr ⟨(k', v'), rfl, rfl⟩

/-- `mapInsertBy` preserves strict key-sortedness. -/
theorem chain'_mapInsertBy {κ ν : Type} (lt : κ → κ → Bool) (k : κ) (v : ν) :
    ∀ (l : List (κ × ν)), List.Chain' (fun a b => lt a.1 b.1 = true) l →
    List.Chain' (fun a b => lt a.1 b.1 = true) (mapInsertBy lt k v l) := by
  intro l
  induction l with
  | nil => intro _; simp [mapInsertBy]
  | cons q rest ih =>
    intro hchain
    cases q with
    | mk k' v' =>
      rw [List.chain'_cons'] at hchain
      obtain ⟨hhead, htail⟩ := hchain
      by_cases h1 : lt k k'
      · simp only [mapInsertBy, if_pos h1]
        rw [List.chain'_cons']
        refine ⟨?_, ?_⟩
        · intro b hb
          simp only [List.head?_cons, Option.mem_def] at hb
          cases Option.some.inj hb
          exact h1
        · rw [List.chain'_cons']
          exact ⟨hhead, htail⟩
      · by_cases h2 : lt k' k
        · simp only [mapInsertBy, if_neg h1, if_pos h2]
          rw [List.chain'_cons']
          refine ⟨?_, ih htail⟩
          intro b hb
          rcases mapInsertBy_head_key lt k v rest b hb with hk | ⟨q, hq, hbq⟩
          · rw [hk]; exact h2
          · rw [hbq]
            exact hhead q hq
        · simp only [mapInsertBy, if_neg h1, if_neg h2]
          rw [List.chain'_cons']
          exact ⟨hhead, htail⟩

/-- Every entry of a `mapInsertBy` result is the inserted binding, has
the head key with the new value, or is an original entry. -/
theorem mapInsertBy_mem {κ ν : Type} (lt : κ → κ → Bool) (k : κ) (v : ν) :
    ∀ (l : List (κ × ν)) (p : κ × ν), p ∈ mapInsertBy lt k v l →
      p.2 = v ∨ p ∈ l := by
  intro l
  induction l with
  | nil =>
    intro p hp
    simp only [mapInsertBy, List.mem_singleton] at hp
    rw [hp]
    exact Or.inl rfl
  | cons q rest ih =>
    intro p hp
    cases q with
    | mk k' v' =>
      by_cases h1 : lt k k'
      · simp only [mapInsertBy, if_pos h1, List.mem_cons] at hp
        rcases hp with hp | hp | hp
        · rw [hp]; exact Or.inl rfl
        · exact Or.inr (by rw [hp]; exact List.mem_cons_self _ _)
        · exact Or.inr (List.mem_cons_of_mem _ hp)
      · by_cases h2 : lt k' k
        · simp only [mapInsertBy, if_neg h1, if_pos h2, List.mem_cons] at hp
          rcases hp with hp | hp
          · exact Or.inr (by rw [hp]; exact List.mem_cons_self _ _)
          · rcases ih p hp with hv | hm
            · exact Or.inl hv
            · exact Or.inr (List.mem_cons_of_mem _ hm)
        · simp only [mapInsertBy, if_neg h1, if_neg h2, List.mem_cons] at hp
          rcases hp with hp | hp
          · rw [hp]; exact Or.inl rfl
          · exact Or.inr (List.mem_cons_of_mem _ hp)

/-- `dbReplace` does not change the stored keys. -/
theorem dbReplace_map_fst (name : String) (m : Metric) :
    ∀ (db : MetricDatabase), (dbReplace name m db).map Prod.fst = db.map Prod.fst := by
  intro db
  induction db with
  | nil => rfl
  | cons p rest ih =>
    cases p with
    | mk n m' =>
      by_cases hn : n = name
      · simp [dbReplace, hn]
      · simp only [dbReplace, if_neg hn, List.map_cons]
        rw [ih]

/-- Every entry of a `dbReplace` result is the replacement metric or an
original entry. -/
theorem dbReplace_mem (name : String) (m : Metric) :
    ∀ (db : MetricDatabase) (p : String × Metric), p ∈ dbReplace name m db →
      p.2 = m ∨ p ∈ db := by
  intro db
  induction db with
  | nil => intro p hp; exact absurd hp (by simp [dbReplace])
  | cons q rest ih =>
    intro p hp
    cases q with
    | mk n m' =>
      by_cases hn : n = name
      · simp only [dbReplace, if_pos hn, List.mem_cons] at hp
        rcases hp with hp | hp
        · rw [hp]; exact Or.inl rfl
        · exact Or.inr (List.mem_cons_of_mem _ hp)
      · simp only [dbReplace, if_neg hn, List.mem_cons] at hp
        rcases hp with hp | hp
        · exact Or.inr (by rw [hp]; exact List.mem_cons_self _ _)
        · rcases ih p hp with hv | hm
          · exact Or.inl hv
          · exact Or.inr (List.mem_cons_of_mem _ hm)

/-- A successful `dbFind` locates a stored entry. -/
theorem dbFind_mem (name : String) :
    ∀ (db : MetricDatabase) (m : Metric), dbFind name db = some m → (name, m) ∈ db := by
  intro db
  induction db with
  | nil => intro m h; exact absurd h (by simp [dbFind])
  | cons q rest ih =>
    intro m h
    cases q with
    | mk n m' =>
      by_cases hn : n = name
      · rw [dbFind, if_pos hn] at h
        cases Option.some.inj h
        rw [← hn]
        exact List.mem_cons_self _ _
      · rw [dbFind, if_neg hn] at h
        exact List.mem_cons_of_mem _ (ih m h)

/-- The key-sortedness invariant the registry keeps: metric names in
strictly increasing order, and each metric's sample keys in strictly
increasing label-tuple order. -/
def DbSorted (db : MetricDatabase) : Prop :=
  List.Chain' (fun a b => strLtB a.1 b.1 = true) db
  ∧ ∀ p ∈ db, List.Chain' (fun a b => keysLtB a.1 b.1 = true) p.2.samples

/-- A single metric mutation preserves sample-key sortedness. -/
theorem applyMut_samples_sorted (m : Metric) (mu : MetricMut) (m' : Metric)
    (h : applyMut m mu = some m')
    (hs : List.Chain' (fun a b => keysLtB a.1 b.1 = true) m.samples) :
    List.Chain' (fun a b => keysLtB a.1 b.1 = true) m'.samples := by
  cases mu with
  | setHelpM hh =>
    cases hh with
    | none =>
      simp only [applyMut, Metric.set_help] at h
      cases Option.some.inj h; exact hs
    | some s =>
      simp only [applyMut, Metric.set_help] at h
      by_cases he : s.data = []
      · rw [if_pos he] at h; exact absurd h (by simp)
      · rw [if_neg he] at h; cases Option.some.inj h; exact hs
  | setUnitM u =>
    cases u with
    | none =>
      simp only [applyMut, Metric.set_unit] at h
      cases Option.some.inj h; exact hs
    | some s =>
      simp only [applyMut, Metric.set_unit] at h
      by_cases hc : (s.data ≠ [] &&
          s.data.all (fun d => isAsciiAlphabetic d || isAsciiDigit d || d = '_' || d = ':')) = true
      · rw [if_pos hc] at h; cases Option.some.inj h; exact hs
      · rw [if_neg hc] at h; exact absurd h (by simp)
  | addLabelM l =>
    simp only [applyMut, Metric.add_label] at h
    by_cases hne : m.samples ≠ []
    · rw [if_pos hne] at h; exact absurd h (by simp)
    · rw [if_neg hne] at h
      by_cases hok : label_name_ok l = true
      · rw [if_pos hok] at h; cases Option.some.inj h; exact hs
      · rw [if_neg hok] at h; exact absurd h (by simp)
  | addSampleM labels v =>
    simp only [applyMut, Metric.add_sample] at h
    cases hlv : labelValues labels m.label_names with
    | none =>
      simp only [hlv] at h
      exact absurd h (by simp)
    | some lv =>
      simp only [hlv] at h
      by_cases hall : (labels.all fun p => m.label_names.contains p.1) = true
      · rw [if_pos hall] at h
        cases Option.some.inj h
        exact chain'_mapInsertBy keysLtB lv v m.samples hs
      · rw [if_neg hall] at h; exact absurd h (by simp)

/-- A mutation list preserves sample-key sortedness. -/
theorem applyMuts_samples_sorted :
    ∀ (muts : List MetricMut) (m m' : Metric), applyMuts m muts = some m' →
    List.Chain' (fun a b => keysLtB a.1 b.1 = true) m.samples →
    List.Chain' (fun a b => keysLtB a.1 b.1 = true) m'.samples := by
  intro muts
  induction muts with
  | nil =>
    intro m m' h hs
    cases Option.some.inj h
    exact hs
  | cons mu rest ih =>
    intro m m' h hs
    simp only [applyMuts] at h
    cases hmu : applyMut m mu with
    | none => rw [hmu] at h; exact absurd h (by simp)
    | some mmid =>
      rw [hmu] at h
      exact ih mmid m' h (applyMut_samples_sorted m mu mmid hmu hs)

/-- One `DbOp` preserves the registry's sortedness invariant. -/
theorem applyOp_sorted (db : MetricDatabase) (op : DbOp) (db' : MetricDatabase)
    (h : applyOp db op = some db') (hs : DbSorted db) : DbSorted db' := by
  obtain ⟨hnames, hsamples⟩ := hs
  simp only [applyOp] at h
  cases hg : get_or_insert db op.name op.kind with
  | none =>
    simp only [hg] at h
    exact absurd h (by simp)
  | some db1 =>
    simp only [hg] at h
    have hdb1 : DbSorted db1 := by
      simp only [get_or_insert] at hg
      cases hf : dbFind op.name db with
      | some m0 =>
        rw [hf] at hg
        cases Option.some.inj hg
        exact ⟨hnames, hsamples⟩
      | none =>
        rw [hf] at hg
        cases hnew : Metric.new op.name op.kind with
        | none => rw [hnew] at hg; exact absurd hg (by simp)
        | some m0 =>
          rw [hnew] at hg
          cases Option.some.inj hg
          constructor
          · exact chain'_mapInsertBy strLtB op.name m0 db hnames
          · intro p hp
            rcases mapInsertBy_mem strLtB op.name m0 db p hp with hv | hm
            · rw [hv]
              have : m0.samples = [] := by
                simp only [Metric.new] at hnew
                by_cases hok : metric_new_name_ok op.name = true
                · rw [if_pos hok] at hnew
                  cases Option.some.inj hnew
                  rfl
                · rw [if_neg hok] at hnew; exact absurd hnew (by simp)
              rw [this]
              exact List.chain'_nil
            · exact hsamples p hm
    obtain ⟨h1names, h1samples⟩ := hdb1
    cases hf1 : dbFind op.name db1 with
    | none =>
      simp only [hf1] at h
      exact absurd h (by simp)
    | some m =>
      simp only [hf1] at h
      cases hmuts : applyMuts m op.muts with
      | none =>
        simp only [hmuts] at h
        exact absurd h (by simp)
      | some m' =>
        simp only [hmuts] at h
        cases Option.some.inj h
        constructor
        · have hmap := (@List.chain'_map String (String × Metric)
            (fun x y => strLtB x y = true) Prod.fst db1).mpr h1names
          rw [← dbReplace_map_fst op.name m' db1] at hmap
          exact (@List.chain'_map String (String × Metric)
            (fun x y => strLtB x y = true) Prod.fst (dbReplace op.name m' db1)).mp hmap
        · intro p hp
          rcases dbReplace_mem op.name m' db1 p hp with hv | hm
          · rw [hv]
            exact applyMuts_samples_sorted op.muts m m' hmuts
              (h1samples (op.name, m) (dbFind_mem op.name db1 m hf1))
          · exact h1samples p hm

/-- Running a list of registry operations preserves the sortedness
invariant. -/
theorem buildDbFrom_sorted :
    ∀ (ops : List DbOp) (db0 db : MetricDatabase), buildDbFrom db0 ops = some db →
    DbSorted db0 → DbSorted db := by
  intro ops
  induction ops with
  | nil =>
    intro db0 db h hs
    cases Option.some.inj h
    exact hs
  | cons op rest ih =>
    intro db0 db h hs
    simp only [buildDbFrom] at h
    cases hop : applyOp db0 op with
    | none =>
      simp only [hop] at h
      exact absurd h (by simp)
    | some db1 =>
      simp only [hop] at h
      exact ih db1 db h (applyOp_sorted db0 op db1 hop hs)

/-- C7: serializing a registry is deterministic — the encoder is a pure
function, so encoding the same registry twice yields byte-identical
output; the output is the concatenation of the per-metric blocks in the
stored order; and every registry a scrape builds stores its metrics in
strictly increasing name order and each metric's samples in strictly
increasing label-value-tuple order, so metrics and samples are emitted
in lexical order. -/
theorem claim7_serialization_order :
    (∀ db : MetricDatabase, MetricDatabase.write db = MetricDatabase.write db)
    ∧ (∀ db : MetricDatabase,
        MetricDatabase.write db = String.join (db.map (fun p => Metric.write p.2)))
    ∧ (∀ (ops : List DbOp) (db : MetricDatabase), buildDb ops = some db →
        List.Chain' (fun a b => strLtB a.1 b.1 = true) db
        ∧ ∀ p ∈ db, List.Chain' (fun a b => keysLtB a.1 b.1 = true) p.2.samples) := by
  refine ⟨fun _ => rfl, fun _ => rfl, ?_⟩
  intro ops db h
  exact buildDbFrom_sorted ops [] db h ⟨List.chain'_nil, by simp⟩

/-- C7, witness: the out-of-order operations of `opsW` yield the
registry `dbW`, whose names and sample keys are sorted. -/
theorem claim7_witness :
    buildDb opsW = some dbW
    ∧ List.Chain' (fun a b => strLtB a.1 b.1 = true) dbW
    ∧ (∀ p ∈ dbW, List.Chain' (fun a b => keysLtB a.1 b.1 = true) p.2.samples) := by
  have hdb : buildDb opsW = some dbW := by decide
  have h := claim7_serialization_order.2.2 opsW dbW hdb
  exact ⟨hdb, h.1, h.2⟩

/-- C8, witness: a sample whose label map carries exactly the
registered label set is accepted. -/
theorem claim8_witness :
    (metricW.add_sample [("job", "x")] (Number.integer 1)).isSome = true :=
  (claim8_label_set_invariant.1 metricW [("job", "x")] (Number.integer 1)).mpr
    (fun _ => Iff.rfl)

/-- When no unterminated bytes remain (or the connection ends in a read
error), the chunk loop forwards exactly the non-`LOG ` frames in order
and then marks the connection dead. -/
theorem processChunks_ok (leftover : List Nat) (err : Bool)
    (h : leftover = [] ∨ err = true) :
    ∀ (chunks : List (List Nat)),
    processChunks leftover err chunks
      = some ((((chunks.map (fun c => c.dropLast)).filter
          (fun f => !(logPrefix.isPrefixOf f))).map REvent.forward)
        ++ [REvent.markDead]) := by
  intro chunks
  induction chunks with
  | nil =>
    rcases h with h | h <;> simp [processChunks, h]
  | cons c cs ih =>
    by_cases hp : logPrefix.isPrefixOf c.dropLast
    · simp [processChunks, ih, hp, List.filter_cons]
    · simp [processChunks, ih, hp, List.filter_cons]

/-- With unterminated bytes left at clean end-of-file, the chunk loop
panics instead of marking the connection dead. -/
theorem processChunks_panic (leftover : List Nat) (h : leftover ≠ []) :
    ∀ (chunks : List (List Nat)), processChunks leftover false chunks = none := by
  intro chunks
  induction chunks with
  | nil => simp [processChunks, h]
  | cons c cs ih => simp [processChunks, ih]

/-- C9: for every sequence of handed-off connections whose byte streams
end at a frame boundary or in a read error, the reader task forwards
exactly the frames that do not start with `LOG ` — each with its NUL
terminator stripped, in the exact order received — marks the death flag
at each connection's end before waiting for the next one, and
terminates exactly when the handoff list is exhausted. -/
theorem claim9_reader_task :
    (∀ (stream : List Nat) (errAtEnd : Bool),
      ((nulChunks stream).2 = [] ∨ errAtEnd = true) →
      processConnection stream errAtEnd = some (socketEvents stream))
    ∧ (∀ (sockets : List (List Nat × Bool)),
      (∀ s ∈ sockets, (nulChunks s.1).2 = [] ∨ s.2 = true) →
      message_processor sockets
        = some ((sockets.map (fun s => socketEvents s.1)).flatten)) := by
  have hconn : ∀ (stream : List Nat) (errAtEnd : Bool),
      ((nulChunks stream).2 = [] ∨ errAtEnd = true) →
      processConnection stream errAtEnd = some (socketEvents stream) := by
    intro stream errAtEnd h
    unfold processConnection socketEvents
    exact processChunks_ok (nulChunks stream).2 errAtEnd h (nulChunks stream).1
  refine ⟨hconn, ?_⟩
  intro sockets
  induction sockets with
  | nil => intro _; rfl
  | cons s rest ih =>
    intro h
    cases s with
    | mk stream errAtEnd =>
      simp only [message_processor]
      rw [hconn stream errAtEnd (h (stream, errAtEnd) (List.mem_cons_self _ _))]
      rw [ih (fun s hs => h s (List.mem_cons_of_mem _ hs))]
      simp

/-- C9, witness: a connection delivering a `LOG x` frame and an `A`
frame, then one delivering a `B` frame before a read error, forwards
exactly `A` and `B` with a death mark after each connection. -/
theorem claim9_witness :
    message_processor [([76, 79, 71, 32, 120, 0, 65, 0], false), ([66, 0], true)]
      = some [REvent.forward [65], REvent.markDead,
              REvent.forward [66], REvent.markDead] := by
  have h := claim9_reader_task.2
    [([76, 79, 71, 32, 120, 0, 65, 0], false), ([66, 0], true)] (by decide)
  exact h.trans (by decide)

/-- C10: a connection whose byte stream ends at clean end-of-file in
the middle of a frame (nonempty trailing bytes with no NUL) makes the
reader task's buffer-ends-with-NUL assertion fail — a panic, not a
death-mark-and-wait; when every successful read ends at a frame
boundary the loop completes without panicking, so the assertion is
valid exactly under that precondition. -/
theorem claim10_frame_boundary_panic :
    (∀ (stream : List Nat), (nulChunks stream).2 ≠ [] →
      processConnection stream false = none)
    ∧ (∀ (stream : List Nat) (errAtEnd : Bool), (nulChunks stream).2 = [] →
      (processConnection stream errAtEnd).isSome = true) := by
  constructor
  · intro stream h
    unfold processConnection
    exact processChunks_panic (nulChunks stream).2 h (nulChunks stream).1
  · intro stream errAtEnd h
    unfold processConnection
    rw [processChunks_ok (nulChunks stream).2 errAtEnd (Or.inl h) (nulChunks stream).1]
    rfl

/-- C10, witness: the stream `A` (no NUL) panics the reader task; the
stream `A\0` is processed without a panic. -/
theorem claim10_witness :
    processConnection [65] false = none
    ∧ (processConnection [65, 0] false).isSome = true :=
  ⟨claim10_frame_boundary_panic.1 [65] (by decide),
   claim10_frame_boundary_panic.2 [65, 0] false (by decide)⟩

end RadiatorExporter
